import Mathlib

/-!
Verification of the campi feed reader merge/persist core.

Shallow embedding of `src/campi/story.py`, `src/campi/feed.py` and
`src/settings.py`.  Python `datetime` values are modelled as `Int`
timestamps (datetimes of one kind are totally ordered, which is all the
code uses); `uuid4` allocation is modelled as an oracle parameter
supplying fresh hash strings (the allocated value never influences
control flow in the code under study); file and HTTP I/O are modelled by
passing the read data in and returning the written data out.
-/

namespace Campi

/-- A story, mirroring the attributes set in `Story.__init__`
(story.py:41-61): title, published, category, link, unread, note, hash.
`published` is an `Int` timestamp, `note` the integer rating. -/
structure Story where
  title : String
  published : Int
  category : String
  link : String
  unread : Bool
  note : Int
  hash : String
deriving DecidableEq

/-- Embedding of the Python `str.lower()` calls used in the dedup checks (adequate for the
ASCII case folding the comparisons rely on). -/
def pyLower (s : String) : String := String.mk (s.data.map Char.toLower)

/-- The comparison used by `self.stories.sort(key=lambda st: st.published,
reverse=True)` (feed.py:203): descending by publication timestamp. -/
def storyLe (a b : Story) : Bool := decide (b.published ≤ a.published)

/-- The Prop-level descending-order relation on stories. -/
def publishedGe (a b : Story) : Prop := b.published ≤ a.published

instance : DecidableRel publishedGe :=
  fun a b => (inferInstance : Decidable (b.published ≤ a.published))

/-- Embedding of `Feed.add_story_if_needed` (feed.py:189-203): skip when the lowered
title is among the existing lowered titles, or the lowered link among the
existing lowered links; otherwise append a new story with the given
unread/note and the hash to use (the caller resolves `hash=None` to a
fresh uuid), then re-sort descending by `published`. -/
def add_story_if_needed (stories : List Story) (title : String) (published : Int)
    (category : String) (link : String) (unread : Bool) (note : Int)
    (hash : String) : List Story :=
  if pyLower title ∈ stories.map (fun st => pyLower st.title) then stories
  else if pyLower link ∈ stories.map (fun st => pyLower st.link) then stories
  else (stories ++ [(⟨title, published, category, link, unread, note, hash⟩ : Story)]).mergeSort storyLe

/-- One `<item>` element as consumed by `Feed.update_from_XML`
(feed.py:132-165): the text of each of the five sub-elements the code
looks up, `none` when the element is absent. -/
structure Item where
  titleText : Option String
  pubDateText : Option String
  submittedText : Option String
  categoryText : Option String
  linkText : Option String
deriving DecidableEq

/-- Title extraction (feed.py:136-139): default "unknown". -/
def itemTitle (it : Item) : String := it.titleText.getD "unknown"

/-- Publication-date extraction (feed.py:142-151): prefer `pubDate`, then
`submitted` (each parsed from text by `dateutil.parser.parse`, modelled by
the oracle `pd`), else `datetime.now()` (the parameter `now`). -/
def itemPublished (pd : String → Int) (now : Int) (it : Item) : Int :=
  match it.pubDateText with
  | some s => pd s
  | none =>
    match it.submittedText with
    | some s => pd s
    | none => now

/-- Category extraction (feed.py:154-157): default "unknown". -/
def itemCategory (it : Item) : String := it.categoryText.getD "unknown"

/-- Link extraction (feed.py:160-163): default the empty string. -/
def itemLink (it : Item) : String := it.linkText.getD ""

/-- The item loop of `Feed.update_from_XML` (feed.py:132-165): each item
is inserted via `add_story_if_needed` with the defaults `unread=True`,
`note=0` and a freshly allocated hash (`fresh k` for the k-th item).  The
feed-level title/description adoption (feed.py:123-129) does not touch
the story collection and is elided. -/
def update_from_XML (pd : String → Int) (now : Int) (fresh : Nat → String) :
    List Story → List Item → Nat → List Story
  | stories, [], _ => stories
  | stories, it :: its, k =>
      update_from_XML pd now fresh
        (add_story_if_needed stories (itemTitle it) (itemPublished pd now it)
          (itemCategory it) (itemLink it) true 0 (fresh k)) its (k + 1)

/-- Outcome of one refresh attempt: the final in-memory story collection
and the successive snapshots written to storage by `save()` calls. -/
structure RefreshOutcome where
  stories : List Story
  savedSnapshots : List (List Story)
deriving DecidableEq

/-- Embedding of `Feed.load_stories_from_link` (feed.py:102-119): on HTTP 200 the body
is parsed (`fromstring`, modelled by the oracle `parseXML`; `none` is a
`ParseError`, which the code swallows with `pass`); on success
`update_from_XML` runs (which itself ends with a `save()`, feed.py:167);
in every case a final `save()` runs (feed.py:119). -/
def load_stories_from_link (pd : String → Int) (now : Int) (fresh : Nat → String)
    (stories : List Story) (status : Nat) (body : String)
    (parseXML : String → Option (List Item)) : RefreshOutcome :=
  if status = 200 then
    match parseXML body with
    | some items =>
        let updated := update_from_XML pd now fresh stories items 0
        ⟨updated, [updated, updated]⟩
    | none => ⟨stories, [stories]⟩
  else ⟨stories, [stories]⟩

/-- A YAML scalar as stored in the per-feed record: the value kinds that
`yaml.safe_load`/`yaml.dump` round-trip for the records of this program. -/
inductive YVal where
  | str : String → YVal
  | int : Int → YVal
  | bool : Bool → YVal
  | time : Int → YVal
deriving DecidableEq

/-- One persisted mapping (a YAML dict), as an association list. -/
abbrev YRecord := List (String × YVal)

/-- Embedding of the Python `dict.get(key, default)` lookups. -/
def yget (r : YRecord) (key : String) (dflt : YVal) : YVal :=
  match r.find? (fun p => decide (p.1 = key)) with
  | some p => p.2
  | none => dflt

/-- The seven fields extracted from one persisted story record. -/
structure LoadedFields where
  title : YVal
  published : YVal
  category : YVal
  link : YVal
  unread : YVal
  note : YVal
  hash : YVal
deriving DecidableEq

/-- The field extraction of `Feed.load_stories_from_filesystem`
(feed.py:91-97), with the literal defaults of the code: note in
particular that a missing `note` defaults to the STRING "0" and a
missing `published` to the STRING "unknown". -/
def loadStoryFields (r : YRecord) : LoadedFields :=
  ⟨yget r "title" (YVal.str "unknown"),
   yget r "published" (YVal.str "unknown"),
   yget r "category" (YVal.str "unknown"),
   yget r "link" (YVal.str ""),
   yget r "unread" (YVal.bool true),
   yget r "note" (YVal.str "0"),
   yget r "hash" (YVal.str "unknown")⟩

/-- Projection of a dynamic value to a string.  Python performs no such
conversion: these projections are exercised only at the constructor the
saver wrote (see `loadRecord_saveRecord`), where they are the identity. -/
def asStr : YVal → String
  | .str s => s
  | _ => ""

/-- Projection of a dynamic value to a timestamp (see `asStr`). -/
def asTime : YVal → Int
  | .time t => t
  | .int n => n
  | _ => 0

/-- Projection of a dynamic value to a boolean (see `asStr`). -/
def asBool : YVal → Bool
  | .bool b => b
  | _ => true

/-- Projection of a dynamic value to an integer (see `asStr`). -/
def asInt : YVal → Int
  | .int n => n
  | _ => 0

/-- One iteration of the load loop (feed.py:90-98): extract the fields of
the record and insert via `add_story_if_needed`. -/
def loadRecord (acc : List Story) (r : YRecord) : List Story :=
  let f := loadStoryFields r
  add_story_if_needed acc (asStr f.title) (asTime f.published) (asStr f.category)
    (asStr f.link) (asBool f.unread) (asInt f.note) (asStr f.hash)

/-- Embedding of `Feed.load_stories_from_filesystem` (feed.py:77-100) on an
already-read record list: fold the insert loop over the records, starting
from the (empty) story list of the feed. -/
def load_stories_from_filesystem (records : List YRecord) : List Story :=
  records.foldl loadRecord []

/-- One record as written by `Feed.save` (feed.py:175-183): all seven
keys, in the field order of the code. -/
def saveRecord (st : Story) : YRecord :=
  [("title", YVal.str st.title), ("published", YVal.time st.published),
   ("category", YVal.str st.category), ("link", YVal.str st.link),
   ("unread", YVal.bool st.unread), ("note", YVal.int st.note),
   ("hash", YVal.str st.hash)]

/-- Embedding of `Feed.save` (feed.py:169-187): serialize the story list in its
in-memory order. -/
def save (stories : List Story) : List YRecord := stories.map saveRecord

/-- The (title, link, category, unread, rating, identifier) tuple of a
story, the data the round-trip claim compares. -/
def storyKey (st : Story) : String × String × String × Bool × Int × String :=
  (st.title, st.link, st.category, st.unread, st.note, st.hash)

/-- Result of a story mutation: the updated story and whether
`feed.save()` was awaited. -/
structure MutResult where
  story : Story
  saved : Bool
deriving DecidableEq

/-- Embedding of `Story.decrease_note` (story.py:134-139): always clear `unread`; only
when `note > -2`, decrement and save. -/
def decrease_note (st : Story) : MutResult :=
  if st.note > -2 then
    ⟨⟨st.title, st.published, st.category, st.link, false, st.note - 1, st.hash⟩, true⟩
  else
    ⟨⟨st.title, st.published, st.category, st.link, false, st.note, st.hash⟩, false⟩

/-- Embedding of `Story.increase_note` (story.py:141-146): always clear `unread`; only
when `note < 3`, increment and save. -/
def increase_note (st : Story) : MutResult :=
  if st.note < 3 then
    ⟨⟨st.title, st.published, st.category, st.link, false, st.note + 1, st.hash⟩, true⟩
  else
    ⟨⟨st.title, st.published, st.category, st.link, false, st.note, st.hash⟩, false⟩

/-- The Python exceptions relevant to `Story.next_unread`. -/
inductive PyErr where
  | valueError
  | indexError
deriving DecidableEq

/-- Embedding of `list.index(x)` as called at story.py:117: the index of the first equal
element, raising `ValueError` when the element is not in the list. -/
def listIndex (xs : List Story) (a : Story) : Except PyErr Nat :=
  match xs.findIdx? (fun x => decide (x = a)) with
  | some i => Except.ok i
  | none => Except.error PyErr.valueError

/-- Embedding of `Story.next_unread` (story.py:113-124): look up the index
of this story in the collection of the owning feed inside a `try` whose `except` clause catches
only `IndexError` (returning `None`); scan the stories strictly after
that index for the first unread one. -/
def next_unread (feedStories : List Story) (self : Story) :
    Except PyErr (Option Story) :=
  match listIndex feedStories self with
  | Except.error PyErr.indexError => Except.ok none
  | Except.error e => Except.error e
  | Except.ok index =>
      Except.ok ((feedStories.drop (index + 1)).find? (fun st => st.unread))

/-- The story states reachable in the program: a story is created only by
the merge path of `update_from_XML` (with `unread=True`, `note=0`), and is
mutated only by `decrease_note`, `increase_note` and the unread-clearing
of `open_in_browser` (story.py:126-132).  Restoring a program-saved
record reproduces the saved fields unchanged (the round-trip result
proved for the persistence claim), so it introduces no further states. -/
inductive ReachableStory : Story → Prop where
  | merged (title : String) (published : Int) (category : String)
      (link : String) (hash : String) :
      ReachableStory ⟨title, published, category, link, true, 0, hash⟩
  | dec {st : Story} : ReachableStory st → ReachableStory (decrease_note st).story
  | inc {st : Story} : ReachableStory st → ReachableStory (increase_note st).story
  | opened {st : Story} : ReachableStory st →
      ReachableStory ⟨st.title, st.published, st.category, st.link, false, st.note, st.hash⟩

/-- A feed object, mirroring the attributes of `Feed.__init__`
(feed.py:50-67) that the registry claims concern. -/
structure Feed where
  title : String
  description : String
  link : String
  hash : String
deriving DecidableEq

/-- One feed stub record from `feeds.yml` (settings.py:68-73): each field
text, `none` when the key is absent. -/
structure FeedStub where
  titleVal : Option String
  descriptionVal : Option String
  linkVal : Option String
  hashVal : Option String
deriving DecidableEq

/-- Embedding of `feed_def.get(field, "unknown")` (settings.py:69-72). -/
def stubField (o : Option String) : String := o.getD "unknown"

/-- Python dict assignment `m[k] = v`: the previous binding of the key is
replaced, other bindings are untouched. -/
def mapSet (m : List (String × Nat)) (k : String) (v : Nat) :
    List (String × Nat) :=
  m.filter (fun p => decide (p.1 ≠ k)) ++ [(k, v)]

/-- Python dict lookup `m[k]` / `k in m`, as an optional value. -/
def mapGet (m : List (String × Nat)) (k : String) : Option Nat :=
  (m.find? (fun p => decide (p.1 = k))).map (fun p => p.2)

/-- The loop of `Settings.load_from_filesystem` (settings.py:67-75):
each stub constructs a `Feed` whose missing fields default to "unknown"
(in particular the hash, settings.py:72), and `Feed.__init__`
(feed.py:67) registers `settings.feed_hashes[hash] = self`.  Feeds are
identified by their position in the construction order. -/
def load_from_filesystem_go : List FeedStub → List Feed → List (String × Nat) →
    List Feed × List (String × Nat)
  | [], feeds, m => (feeds, m)
  | d :: ds, feeds, m =>
      let f : Feed := ⟨stubField d.titleVal, stubField d.descriptionVal,
        stubField d.linkVal, stubField d.hashVal⟩
      load_from_filesystem_go ds (feeds ++ [f]) (mapSet m f.hash feeds.length)

/-- Embedding of `Settings.load_from_filesystem` (settings.py:50-76) on an
already-read stub list: the constructed feeds and the resulting
`feed_hashes` registry map. -/
def load_from_filesystem (defs : List FeedStub) :
    List Feed × List (String × Nat) :=
  load_from_filesystem_go defs [] []

/-- Helper: the two early returns of `add_story_if_needed`. -/
theorem addStory_eq_of_dup (stories : List Story) (title : String)
    (published : Int) (category : String) (link : String) (unread : Bool)
    (note : Int) (hash : String)
    (h : pyLower title ∈ stories.map (fun st => pyLower st.title) ∨
         pyLower link ∈ stories.map (fun st => pyLower st.link)) :
    add_story_if_needed stories title published category link unread note hash
      = stories := by
  unfold add_story_if_needed
  rcases h with h | h
  · rw [if_pos h]
  · by_cases ht : pyLower title ∈ stories.map (fun st => pyLower st.title)
    · rw [if_pos ht]
    · rw [if_neg ht, if_pos h]

/-- Helper: when neither dedup check fires, the new story is appended and
the whole collection re-sorted. -/
theorem addStory_eq_of_new (stories : List Story) (title : String)
    (published : Int) (category : String) (link : String) (unread : Bool)
    (note : Int) (hash : String)
    (ht : pyLower title ∉ stories.map (fun st => pyLower st.title))
    (hl : pyLower link ∉ stories.map (fun st => pyLower st.link)) :
    add_story_if_needed stories title published category link unread note hash
      = (stories ++ [(⟨title, published, category, link, unread, note, hash⟩ : Story)]).mergeSort storyLe := by
  unfold add_story_if_needed
  rw [if_neg ht, if_neg hl]

/-- Claim C1: an insertion attempt whose title matches an existing title
or whose link matches an existing link, case-insensitively, leaves the
story collection unchanged (same list, hence same length and elements). -/
theorem add_story_dedup_noop (stories : List Story) (title : String)
    (published : Int) (category : String) (link : String) (unread : Bool)
    (note : Int) (hash : String)
    (h : pyLower title ∈ stories.map (fun st => pyLower st.title) ∨
         pyLower link ∈ stories.map (fun st => pyLower st.link)) :
    add_story_if_needed stories title published category link unread note hash
      = stories :=
  addStory_eq_of_dup stories title published category link unread note hash h

/-- Witness for C1 at a concrete feed: inserting a story whose title
matches (with different case) an existing one is a no-op. -/
theorem add_story_dedup_noop_witness :
    (pyLower "example" ∈ [(⟨"Example", 5, "c", "l", true, 0, "h1"⟩ : Story)].map
        (fun st => pyLower st.title) ∨
      pyLower "other" ∈ [(⟨"Example", 5, "c", "l", true, 0, "h1"⟩ : Story)].map
        (fun st => pyLower st.link)) ∧
    add_story_if_needed [⟨"Example", 5, "c", "l", true, 0, "h1"⟩] "example" 9 "d"
        "other" true 0 "h2"
      = [⟨"Example", 5, "c", "l", true, 0, "h1"⟩] :=
  ⟨Or.inl (by decide),
   add_story_dedup_noop [⟨"Example", 5, "c", "l", true, 0, "h1"⟩] "example" 9 "d"
     "other" true 0 "h2" (Or.inl (by decide))⟩

/-- Helper: the sort comparison is transitive. -/
theorem storyLe_trans : ∀ (a b c : Story), storyLe a b → storyLe b c → storyLe a c := by
  intro a b c h1 h2
  simp only [storyLe, decide_eq_true_eq] at *
  omega

/-- Helper: the sort comparison is total. -/
theorem storyLe_total : ∀ (a b : Story), storyLe a b || storyLe b a := by
  intro a b
  simp only [storyLe, Bool.or_eq_true, decide_eq_true_eq]
  omega

/-- Helper: `add_story_if_needed` preserves descending sortedness (a no-op
attempt keeps the list, an actual insertion re-sorts the whole list). -/
theorem addStory_sorted (stories : List Story) (title : String) (published : Int)
    (category : String) (link : String) (unread : Bool) (note : Int) (hash : String)
    (h : stories.Pairwise publishedGe) :
    (add_story_if_needed stories title published category link unread note
      hash).Pairwise publishedGe := by
  unfold add_story_if_needed
  split_ifs with h1 h2
  · exact h
  · exact h
  · exact (@List.sorted_mergeSort Story storyLe storyLe_trans storyLe_total
      (stories ++ [⟨title, published, category, link, unread, note, hash⟩])).imp
      (fun hab => by simpa [storyLe, publishedGe] using hab)

/-- Helper: the load loop preserves descending sortedness from any
sorted accumulator. -/
theorem load_sorted_aux (records : List YRecord) :
    ∀ acc : List Story, acc.Pairwise publishedGe →
      (records.foldl loadRecord acc).Pairwise publishedGe := by
  induction records with
  | nil => intro acc h; simpa using h
  | cons r rs ih =>
      intro acc h
      simp only [List.foldl_cons]
      exact ih _ (addStory_sorted _ _ _ _ _ _ _ _ h)

/-- Claim C2: after any insertion — one `add_story_if_needed` call on a
sorted collection (the merge path), or the whole persisted-record load —
the story collection is sorted by publication timestamp, descending. -/
theorem insertion_keeps_sorted (stories : List Story) (title : String)
    (published : Int) (category : String) (link : String) (unread : Bool)
    (note : Int) (hash : String) (h : stories.Pairwise publishedGe) :
    (add_story_if_needed stories title published category link unread note
      hash).Pairwise publishedGe ∧
    ∀ records : List YRecord,
      (load_stories_from_filesystem records).Pairwise publishedGe :=
  ⟨addStory_sorted stories title published category link unread note hash h,
   fun records => load_sorted_aux records [] List.Pairwise.nil⟩

/-- Witness for C2 at a concrete sorted feed and insertion. -/
theorem insertion_keeps_sorted_witness :
    ([(⟨"A", 9, "c", "l", true, 0, "h1"⟩ : Story),
      ⟨"B", 4, "c", "m", true, 0, "h2"⟩].Pairwise publishedGe) ∧
    (add_story_if_needed
        [⟨"A", 9, "c", "l", true, 0, "h1"⟩, ⟨"B", 4, "c", "m", true, 0, "h2"⟩]
        "C" 7 "d" "n" true 0 "h3").Pairwise publishedGe :=
  ⟨by decide,
   (insertion_keeps_sorted
      [⟨"A", 9, "c", "l", true, 0, "h1"⟩, ⟨"B", 4, "c", "m", true, 0, "h2"⟩]
      "C" 7 "d" "n" true 0 "h3" (by decide)).1⟩

/-- Helper: on a record written by `Feed.save`, each dynamic field getter
returns exactly the saved field, so one load iteration is one
`add_story_if_needed` with the own fields of the story. -/
theorem loadRecord_saveRecord (acc : List Story) (st : Story) :
    loadRecord acc (saveRecord st)
      = add_story_if_needed acc st.title st.published st.category st.link
          st.unread st.note st.hash := rfl

/-- Helper: loading the saved records of stories whose lowered titles and
lowered links are, together with those of the accumulator, pairwise distinct
inserts every record, yielding a permutation of accumulator ++ stories. -/
theorem load_save_perm_aux (sts : List Story) :
    ∀ acc : List Story,
      ((acc ++ sts).map (fun st => pyLower st.title)).Nodup →
      ((acc ++ sts).map (fun st => pyLower st.link)).Nodup →
      List.Perm ((save sts).foldl loadRecord acc) (acc ++ sts) := by
  induction sts with
  | nil =>
      intro acc ht hl
      simp [save]
  | cons st sts ih =>
      intro acc ht hl
      have htm : pyLower st.title ∉ acc.map (fun s => pyLower s.title) := by
        have h' := ht
        rw [List.map_append, List.nodup_append] at h'
        exact fun hmem => h'.2.2 hmem (by simp)
      have hlm : pyLower st.link ∉ acc.map (fun s => pyLower s.link) := by
        have h' := hl
        rw [List.map_append, List.nodup_append] at h'
        exact fun hmem => h'.2.2 hmem (by simp)
      have hstep : loadRecord acc (saveRecord st)
          = (acc ++ [st]).mergeSort storyLe := by
        rw [loadRecord_saveRecord]
        exact addStory_eq_of_new acc st.title st.published st.category st.link
          st.unread st.note st.hash htm hlm
      have hperm : List.Perm ((acc ++ [st]).mergeSort storyLe) (acc ++ [st]) :=
        List.mergeSort_perm _ _
      have happ : (acc ++ [st]) ++ sts = acc ++ st :: sts := by simp
      have hpermApp :
          List.Perm ((acc ++ [st]).mergeSort storyLe ++ sts) (acc ++ st :: sts) :=
        happ ▸ hperm.append_right sts
      have htn := (hpermApp.map (fun s => pyLower s.title)).nodup_iff.mpr ht
      have hln := (hpermApp.map (fun s => pyLower s.link)).nodup_iff.mpr hl
      have h1 : (save (st :: sts)).foldl loadRecord acc
          = (save sts).foldl loadRecord ((acc ++ [st]).mergeSort storyLe) := by
        simp only [save, List.map_cons, List.foldl_cons]
        rw [show loadRecord acc (saveRecord st)
          = (acc ++ [st]).mergeSort storyLe from hstep]
      rw [h1]
      exact (ih _ htn hln).trans hpermApp

/-- Helper: `add_story_if_needed` preserves the dedup invariant — the
lowered titles stay pairwise distinct, and so do the lowered links.
Since this is the only way stories enter a collection, every collection
the program builds satisfies the hypotheses of the round-trip claim. -/
theorem addStory_keeps_nodup (stories : List Story) (title : String)
    (published : Int) (category : String) (link : String) (unread : Bool)
    (note : Int) (hash : String)
    (ht : (stories.map (fun st => pyLower st.title)).Nodup)
    (hl : (stories.map (fun st => pyLower st.link)).Nodup) :
    ((add_story_if_needed stories title published category link unread note
        hash).map (fun st => pyLower st.title)).Nodup ∧
    ((add_story_if_needed stories title published category link unread note
        hash).map (fun st => pyLower st.link)).Nodup := by
  unfold add_story_if_needed
  split_ifs with h1 h2
  · exact ⟨ht, hl⟩
  · exact ⟨ht, hl⟩
  · have hperm := List.mergeSort_perm
      (stories ++ [(⟨title, published, category, link, unread, note, hash⟩ : Story)])
      storyLe
    constructor
    · refine ((hperm.map _).nodup_iff).mpr ?_
      rw [List.map_append, List.nodup_append]
      refine ⟨ht, by simp, ?_⟩
      intro x hx hx2
      simp only [List.map_cons, List.map_nil, List.mem_singleton] at hx2
      subst hx2
      exact h1 hx
    · refine ((hperm.map _).nodup_iff).mpr ?_
      rw [List.map_append, List.nodup_append]
      refine ⟨hl, by simp, ?_⟩
      intro x hx hx2
      simp only [List.map_cons, List.map_nil, List.mem_singleton] at hx2
      subst hx2
      exact h2 hx

/-- Claim C3: persisting the story list of a feed and reloading it into a
fresh feed reproduces the same multiset (hence set) of
(title, link, category, unread, rating, identifier) tuples, regardless
of the in-memory order at save time and of the re-sort at load time.
The hypotheses are the dedup invariant of the collection, established by
`add_story_if_needed`, the only way stories enter a feed. -/
theorem save_load_round_trip (stories : List Story)
    (ht : (stories.map (fun st => pyLower st.title)).Nodup)
    (hl : (stories.map (fun st => pyLower st.link)).Nodup) :
    List.Perm ((load_stories_from_filesystem (save stories)).map storyKey)
      (stories.map storyKey) := by
  have h := load_save_perm_aux stories [] (by simpa using ht) (by simpa using hl)
  simpa [load_stories_from_filesystem] using h.map storyKey

/-- Witness for C3: two stories saved in ascending-published (unsorted)
order are reloaded — and re-sorted — with the same tuples. -/
theorem save_load_round_trip_witness :
    ([(⟨"A", 1, "c", "l1", true, 0, "h1"⟩ : Story),
      ⟨"B", 9, "d", "l2", false, 2, "h2"⟩].map
        (fun st => pyLower st.title)).Nodup ∧
    List.Perm
      ((load_stories_from_filesystem
          (save [⟨"A", 1, "c", "l1", true, 0, "h1"⟩,
                 ⟨"B", 9, "d", "l2", false, 2, "h2"⟩])).map storyKey)
      ([(⟨"A", 1, "c", "l1", true, 0, "h1"⟩ : Story),
        ⟨"B", 9, "d", "l2", false, 2, "h2"⟩].map storyKey) :=
  ⟨by decide,
   save_load_round_trip
     [⟨"A", 1, "c", "l1", true, 0, "h1"⟩, ⟨"B", 9, "d", "l2", false, 2, "h2"⟩]
     (by decide) (by decide)⟩

/-- Claim C4: both rating mutations always clear `unread`; the note is
decremented by exactly 1 precisely when it is strictly greater than -2
(so at -2 it is left unchanged), incremented by exactly 1 precisely when
strictly less than 3 (so at 3 it is left unchanged); and the owning
persistence of the owning feed is triggered exactly when the numeric value changes. -/
theorem rating_mutation_spec (st : Story) :
    (decrease_note st).story.unread = false ∧
    (increase_note st).story.unread = false ∧
    (decrease_note st).story.note = (if -2 < st.note then st.note - 1 else st.note) ∧
    (decrease_note st).saved = decide (-2 < st.note) ∧
    (increase_note st).story.note = (if st.note < 3 then st.note + 1 else st.note) ∧
    (increase_note st).saved = decide (st.note < 3) ∧
    (decrease_note st).saved = decide ((decrease_note st).story.note ≠ st.note) ∧
    (increase_note st).saved = decide ((increase_note st).story.note ≠ st.note) := by
  unfold decrease_note increase_note
  split_ifs with h1 h2 <;> simp_all

/-- Claim C5 (failing input): the method `Story.next_unread` looks up the
story position with `list.index`, which raises `ValueError` when the story
is not in the collection of the owning feed, while the `except` clause catches
only `IndexError` — so for a story absent from the collection the
exception propagates instead of `None` being returned. -/
theorem next_unread_missing_raises :
    next_unread [⟨"a", 0, "c", "l", true, 0, "h1"⟩]
        ⟨"b", 1, "d", "m", true, 0, "h2"⟩
      = Except.error PyErr.valueError := by
  rfl

/-- Claim C6: every reachable story state has its rating within [-3, 3]
(in fact the program only ever produces values in [-2, 3]). -/
theorem rating_always_clamped (st : Story) (h : ReachableStory st) :
    -3 ≤ st.note ∧ st.note ≤ 3 := by
  induction h with
  | merged title published category link hash => simp
  | dec h ih =>
      unfold decrease_note
      split_ifs with hc <;> simp <;> omega
  | inc h ih =>
      unfold increase_note
      split_ifs with hc <;> simp <;> omega
  | opened h ih => simpa using ih

/-- Witness for C6 at a freshly merged story. -/
theorem rating_always_clamped_witness :
    -3 ≤ (⟨"t", 0, "c", "l", true, 0, "h"⟩ : Story).note ∧
    (⟨"t", 0, "c", "l", true, 0, "h"⟩ : Story).note ≤ 3 :=
  rating_always_clamped ⟨"t", 0, "c", "l", true, 0, "h"⟩
    (ReachableStory.merged "t" 0 "c" "l" "h")

/-- Claim C9 (failing input): on a persisted story record with no `note`
key and no `published` key, the load-time defaults are the string "0"
(not the integer 0) and the string "unknown" (not a timestamp). -/
theorem load_defaults_are_strings :
    (loadStoryFields [("title", YVal.str "a")]).note = YVal.str "0" ∧
    YVal.str "0" ≠ YVal.int 0 ∧
    (loadStoryFields [("title", YVal.str "a")]).published = YVal.str "unknown" := by
  refine ⟨rfl, by decide, rfl⟩

/-- Claim C7: every refresh attempt ends with a save of the current story
set of the feed — when the HTTP status is not 200, when the body fails
to parse as XML, and on success — and a parse failure is swallowed as a
silent no-op for the in-memory collection. -/
theorem refresh_always_saves (pd : String → Int) (now : Int)
    (fresh : Nat → String) (stories : List Story) (status : Nat)
    (body : String) (parseXML : String → Option (List Item)) :
    (load_stories_from_link pd now fresh stories status body
        parseXML).savedSnapshots.getLast?
      = some (load_stories_from_link pd now fresh stories status body
          parseXML).stories ∧
    (parseXML body = none →
      (load_stories_from_link pd now fresh stories status body
          parseXML).stories = stories) ∧
    (status ≠ 200 →
      (load_stories_from_link pd now fresh stories status body
          parseXML).stories = stories) := by
  unfold load_stories_from_link
  by_cases hs : status = 200
  · subst hs
    cases hp : parseXML body <;> simp [hp]
  · rw [if_neg hs]
    simp [hs]

/-- Witness for C7 at a concrete failed attempt (status 404): the save
still runs, with the unchanged story set. -/
theorem refresh_always_saves_witness :
    (load_stories_from_link (fun _ => 0) 0 (fun _ => "") [] 404 "x"
        (fun _ => none)).savedSnapshots.getLast?
      = some (load_stories_from_link (fun _ => 0) 0 (fun _ => "") [] 404 "x"
          (fun _ => none)).stories ∧
    (load_stories_from_link (fun _ => 0) 0 (fun _ => "") [] 404 "x"
        (fun _ => none)).stories = [] :=
  ⟨(refresh_always_saves (fun _ => 0) 0 (fun _ => "") [] 404 "x"
      (fun _ => none)).1,
   (refresh_always_saves (fun _ => 0) 0 (fun _ => "") [] 404 "x"
      (fun _ => none)).2.1 rfl⟩

/-- Helper: once some existing story has the empty link, any insertion
attempt for a linkless item is a no-op, whatever its title. -/
theorem update_linkless_aux (pd : String → Int) (now : Int)
    (fresh : Nat → String) (items : List Item) :
    ∀ (k : Nat) (acc : List Story),
      (∀ it ∈ items, it.linkText = none) →
      "" ∈ acc.map (fun st => pyLower st.link) →
      update_from_XML pd now fresh acc items k = acc := by
  induction items with
  | nil => intro k acc _ _; rfl
  | cons it its ih =>
      intro k acc hnone hmem
      have hlink : itemLink it = "" := by
        simp [itemLink, hnone it (by simp)]
      have hpl : pyLower (itemLink it) = "" := by rw [hlink]; rfl
      have hnoop : add_story_if_needed acc (itemTitle it)
          (itemPublished pd now it) (itemCategory it) (itemLink it) true 0
          (fresh k) = acc := by
        apply addStory_eq_of_dup
        right
        rw [hpl]
        exact hmem
      rw [show update_from_XML pd now fresh acc (it :: its) k
          = update_from_XML pd now fresh
              (add_story_if_needed acc (itemTitle it) (itemPublished pd now it)
                (itemCategory it) (itemLink it) true 0 (fresh k)) its (k + 1)
          from rfl, hnoop]
      exact ih (k + 1) acc (fun x hx => hnone x (List.mem_cons_of_mem it hx)) hmem

/-- Claim C10: merging a document whose items all lack a link element
into an empty feed creates at most one story: the first linkless item is
inserted with the empty-string link, and every later linkless item is
skipped by the case-insensitive link dedup check, even when its title
differs from the titles of all existing stories. -/
theorem linkless_items_collapse (pd : String → Int) (now : Int)
    (fresh : Nat → String) (items : List Item)
    (h : ∀ it ∈ items, it.linkText = none) :
    (update_from_XML pd now fresh [] items 0).length = min items.length 1 := by
  cases items with
  | nil => rfl
  | cons it its =>
      have hlink : itemLink it = "" := by
        simp [itemLink, h it (by simp)]
      have hfirst : add_story_if_needed [] (itemTitle it)
          (itemPublished pd now it) (itemCategory it) (itemLink it) true 0
          (fresh 0)
          = [⟨itemTitle it, itemPublished pd now it, itemCategory it,
              itemLink it, true, 0, fresh 0⟩] := by
        rw [addStory_eq_of_new _ _ _ _ _ _ _ _ (by simp) (by simp)]
        simp
      have hpl : pyLower (itemLink it) = "" := by rw [hlink]; rfl
      have hrest := update_linkless_aux pd now fresh its 1
        [⟨itemTitle it, itemPublished pd now it, itemCategory it,
          itemLink it, true, 0, fresh 0⟩]
        (fun x hx => h x (List.mem_cons_of_mem it hx))
        (by simp [hpl])
      rw [show update_from_XML pd now fresh [] (it :: its) 0
          = update_from_XML pd now fresh
              (add_story_if_needed [] (itemTitle it) (itemPublished pd now it)
                (itemCategory it) (itemLink it) true 0 (fresh 0)) its 1
          from rfl, hfirst, hrest]
      simp

/-- Witness for C10: two linkless items with different titles produce a
single story. -/
theorem linkless_items_collapse_witness :
    (∀ it ∈ [(⟨some "A", none, none, none, none⟩ : Item),
             ⟨some "B", none, none, none, none⟩], it.linkText = none) ∧
    (update_from_XML (fun _ => 0) 0 (fun _ => "h") []
        [⟨some "A", none, none, none, none⟩,
         ⟨some "B", none, none, none, none⟩] 0).length = min 2 1 :=
  ⟨by decide,
   linkless_items_collapse (fun _ => 0) 0 (fun _ => "h")
     [⟨some "A", none, none, none, none⟩, ⟨some "B", none, none, none, none⟩]
     (by decide)⟩

/-- Helper: dict lookup after assigning the same key. -/
theorem mapGet_mapSet_self (m : List (String × Nat)) (k : String) (v : Nat) :
    mapGet (mapSet m k v) k = some v := by
  unfold mapGet mapSet
  rw [List.find?_append]
  have h1 : (m.filter (fun p => decide (p.1 ≠ k))).find?
      (fun p => decide (p.1 = k)) = none := by
    rw [List.find?_eq_none]
    intro x hx
    have hmem := (List.mem_filter.mp hx).2
    simp only [decide_eq_true_eq] at hmem ⊢
    exact hmem
  rw [h1]
  simp [List.find?]

/-- Helper: dict lookup after assigning a different key. -/
theorem mapGet_mapSet_ne (m : List (String × Nat)) (k k' : String) (v : Nat)
    (h : k' ≠ k) : mapGet (mapSet m k v) k' = mapGet m k' := by
  unfold mapGet mapSet
  rw [List.find?_append]
  have h2 : List.find? (fun p => decide (p.1 = k')) [(k, v)] = none := by
    simp only [List.find?]
    have : (decide ((k, v).1 = k')) = false := by
      simp only [decide_eq_false_iff_not]
      exact fun hk => h hk.symm
    rw [this]
  rw [h2]
  have h3 : (m.filter (fun p => decide (p.1 ≠ k))).find?
      (fun p => decide (p.1 = k'))
      = m.find? (fun p => decide (p.1 = k')) := by
    induction m with
    | nil => rfl
    | cons a as ih =>
        rw [List.filter_cons]
        by_cases hak : a.1 = k
        · have hd1 : (decide (a.1 ≠ k)) = false := by simp [hak]
          have hd2 : (decide (a.1 = k')) = false := by
            simp only [decide_eq_false_iff_not]
            rw [hak]
            exact fun hk => h hk.symm
          rw [hd1, if_neg (by simp), ih, List.find?_cons, hd2]
        · have hd1 : (decide (a.1 ≠ k)) = true := by simp [hak]
          rw [hd1, if_pos rfl, List.find?_cons, List.find?_cons]
          cases hd2 : (decide (a.1 = k')) with
          | true => rfl
          | false => exact ih
  rw [h3]
  simp

/-- Helper: through the registry-load loop, when the hashes of the
accumulated feeds and the (defaulted) hashes of the pending stubs are
pairwise distinct,
every feed keeps exactly its own entry in the map. -/
theorem load_go_spec (ds : List FeedStub) :
    ∀ (feeds : List Feed) (m : List (String × Nat)),
      ((feeds.map Feed.hash ++ ds.map (fun d => stubField d.hashVal)).Nodup) →
      (∀ i (f : Feed), feeds[i]? = some f → mapGet m f.hash = some i) →
      ∀ i (f : Feed), (load_from_filesystem_go ds feeds m).1[i]? = some f →
        mapGet (load_from_filesystem_go ds feeds m).2 f.hash = some i := by
  induction ds with
  | nil =>
      intro feeds m _ hm i f hf
      exact hm i f hf
  | cons d ds ih =>
      intro feeds m hn hm
      have hstep : load_from_filesystem_go (d :: ds) feeds m
          = load_from_filesystem_go ds
              (feeds ++ [⟨stubField d.titleVal, stubField d.descriptionVal,
                stubField d.linkVal, stubField d.hashVal⟩])
              (mapSet m (stubField d.hashVal) feeds.length) := rfl
      rw [hstep]
      have hn' : (((feeds ++ [(⟨stubField d.titleVal, stubField d.descriptionVal,
          stubField d.linkVal, stubField d.hashVal⟩ : Feed)]).map Feed.hash
          ++ ds.map (fun x => stubField x.hashVal)).Nodup) := by
        simp only [List.map_append, List.map_cons, List.map_nil,
          List.append_assoc, List.singleton_append] at hn ⊢
        exact hn
      have hfresh : stubField d.hashVal ∉ feeds.map Feed.hash := by
        have h' := hn
        rw [List.map_cons, List.nodup_append] at h'
        exact fun hmem => h'.2.2 hmem (by simp)
      refine ih _ _ hn' ?_
      intro i f hf
      rcases Nat.lt_trichotomy i feeds.length with hi | hi | hi
      · rw [List.getElem?_append_left hi] at hf
        have hfm : f ∈ feeds := by
          obtain ⟨hlt, heq⟩ := List.getElem?_eq_some_iff.mp hf
          exact heq ▸ List.getElem_mem hlt
        have hne : f.hash ≠ stubField d.hashVal := by
          intro heq
          exact hfresh (heq ▸ List.mem_map_of_mem Feed.hash hfm)
        rw [mapGet_mapSet_ne m (stubField d.hashVal) f.hash feeds.length hne]
        exact hm i f hf
      · subst hi
        rw [List.getElem?_append_right (Nat.le_refl _)] at hf
        simp only [Nat.sub_self, List.getElem?_cons_zero, Option.some_inj] at hf
        subst hf
        exact mapGet_mapSet_self m (stubField d.hashVal) feeds.length
      · rw [List.getElem?_eq_none (by simp; omega)] at hf
        exact absurd hf (by simp)

/-- Claim C8: after loading the persisted feed list, whenever the stored
(or defaulted) identifiers are pairwise distinct, every constructed feed
has exactly its own entry in the identifier-to-feed map; and when two
stubs both lack a stored identifier, each defaults to the literal
"unknown", they collide, the later construction overwrites the earlier
entry, and no entry at all points to the earlier feed. -/
theorem registry_entries_and_unknown_collision :
    (∀ defs : List FeedStub,
      ((defs.map (fun d => stubField d.hashVal)).Nodup) →
      ∀ i (f : Feed), (load_from_filesystem defs).1[i]? = some f →
        mapGet (load_from_filesystem defs).2 f.hash = some i) ∧
    ((load_from_filesystem [⟨none, none, none, none⟩,
        ⟨none, none, none, none⟩]).1.map Feed.hash = ["unknown", "unknown"] ∧
     (load_from_filesystem [⟨none, none, none, none⟩,
        ⟨none, none, none, none⟩]).2 = [("unknown", 1)] ∧
     ∀ k, mapGet (load_from_filesystem [⟨none, none, none, none⟩,
        ⟨none, none, none, none⟩]).2 k ≠ some 0) := by
  refine ⟨?_, by decide, by decide, ?_⟩
  · intro defs hnd i f hf
    exact load_go_spec defs [] [] (by simpa using hnd)
      (by intro j g hg; simp at hg) i f hf
  · intro k
    rw [show (load_from_filesystem [⟨none, none, none, none⟩,
        ⟨none, none, none, none⟩]).2 = [("unknown", 1)] from by decide]
    unfold mapGet
    cases h : List.find? (fun p => decide (p.1 = k)) [("unknown", 1)] with
    | none => simp
    | some p =>
        have hp := List.mem_of_find?_eq_some h
        simp only [List.mem_singleton] at hp
        simp [hp]

/-- Witness for C8: with two distinct stored identifiers, the second feed
is found in the map under its own identifier at its own index. -/
theorem registry_entries_witness :
    mapGet (load_from_filesystem [⟨none, none, none, some "a"⟩,
        ⟨none, none, none, some "b"⟩]).2
      (⟨"unknown", "unknown", "unknown", "b"⟩ : Feed).hash = some 1 :=
  registry_entries_and_unknown_collision.1
    [⟨none, none, none, some "a"⟩, ⟨none, none, none, some "b"⟩] (by decide)
    1 ⟨"unknown", "unknown", "unknown", "b"⟩ (by decide)

end Campi
